import Mathlib

/-!
Verification of the merge-reconcile-normalize core of a currency / ad-spend
ETL project.  The Lean definitions below are shallow embeddings of the Python
functions in `exchangerates.py` and `timezone_and_currency_unification.py`:
pandas DataFrames become lists of records, pandas `concat` /
`drop_duplicates` / `sort_values` become list concatenation, key-directed
deduplication and sorting, and Python exceptions become explicit outcome
types.
-/

/-! ## Rate pipeline: rows and the reconciliation engine (`exchangerates.py`) -/

/-- A row of the exchange-rate table: the `Date` column (a day encoded as an
integer, the canonical form produced by `pd.to_datetime`) plus the remaining
currency columns, carried opaquely as `vals`. -/
structure Row (α : Type) where
  date : Int
  vals : α
deriving DecidableEq, Repr

/-- Ordering of rows by the `Date` column, as used by `sort_values("Date")`. -/
def Row.dateLe {α : Type} (a b : Row α) : Prop := a.date ≤ b.date

instance {α : Type} : DecidableRel (Row.dateLe (α := α)) := fun a b =>
  inferInstanceAs (Decidable (a.date ≤ b.date))

instance {α : Type} : IsTotal (Row α) Row.dateLe := ⟨fun a b => Int.le_total a.date b.date⟩

instance {α : Type} : IsTrans (Row α) Row.dateLe := ⟨fun _ _ _ h1 h2 => le_trans h1 h2⟩

/-- `df.drop_duplicates(subset=key, keep="last")`: a row is kept iff no later
row has the same key; kept rows stay in their original relative order. -/
def dropDupKeepLast {α κ : Type} [DecidableEq κ] (key : α → κ) : List α → List α
  | [] => []
  | x :: xs =>
      if xs.any (fun y => key y = key x) then dropDupKeepLast key xs
      else x :: dropDupKeepLast key xs

/-- `ExchangeRateProcessor.merge_with_historical`: concatenate historical then
new (`pd.concat([historical_data, new_data])`), drop duplicate `Date`s keeping
the last occurrence, and sort ascending by `Date` resetting the index.
(The `pd.to_datetime` step is the identity here because dates are already
carried in canonical integer form.) -/
def merge_with_historical {α : Type} [DecidableEq α]
    (new_data historical_data : List (Row α)) : List (Row α) :=
  List.insertionSort Row.dateLe (dropDupKeepLast Row.date (historical_data ++ new_data))

/-- `ExchangeRateProcessor.add_future_placeholders`: if the batch is empty,
return it unchanged (logged, not an error); otherwise replicate the last row
`days_ahead` times with dates `last_date + 1 .. last_date + days_ahead`. -/
def add_future_placeholders {α : Type} (df : List (Row α))
    (days_ahead : Nat := 2) : List (Row α) :=
  match df.getLast? with
  | none => df
  | some last =>
      df ++ (List.range days_ahead).map (fun i => ⟨last.date + (i : Int) + 1, last.vals⟩)

/-! ## Rate pipeline: the validator (`ExchangeRateProcessor.validate_data`)

The validator only inspects the column structure and the null pattern of the
frame, so a frame is embedded as its list of column labels (which, as in
pandas, may contain duplicate labels) together with its cell matrix. -/

/-- A pandas DataFrame as seen by `validate_data`: column labels plus
row-major cells, `none` standing for a null (`NaN`) entry. -/
structure DataFrame where
  columns : List String
  rows : List (List (Option Rat))
deriving DecidableEq, Repr

/-- `df.empty`: true when either axis has length zero. -/
def DataFrame.empty (df : DataFrame) : Bool :=
  df.rows.isEmpty || df.columns.isEmpty

/-- The body of `validate_data` inside its `try`: the sequence of checks, with
`Except.error` marking the one reachable exception.  Selecting `df[currency]`
when the label occurs more than once yields a sub-DataFrame, and the
comparison `if null_count > 0` on its summed null counts then raises a
`ValueError` (truth value of a Series is ambiguous); every other step is
exception-free. -/
def validate_body (target_currencies : List String) (df : DataFrame) :
    Except Unit Bool :=
  if df.empty then Except.ok false
  else if "Date" ∉ df.columns then Except.ok false
  else if (target_currencies.filter (fun c => c ∉ df.columns)) ≠ [] then Except.ok false
  else if target_currencies.any (fun c => df.columns.count c > 1) then Except.error ()
  else Except.ok true

/-- `ExchangeRateProcessor.validate_data`: the `try` body with the catch-all
`except` clause mapping any internal exception to `False`. -/
def validate_data (target_currencies : List String) (df : DataFrame) : Bool :=
  match validate_body target_currencies df with
  | Except.ok b => b
  | Except.error _ => false

/-! ## Rate pipeline: the response parser (`ExchangeRateProcessor.parse_api_response`)

The raw API payload is a Python/JSON value.  The parser's `try` block catches
`KeyError`, `TypeError` and `IndexError` and re-raises them as a
`ValueError("Invalid API response format")`; an `AttributeError` (calling
`.items()` or `.split` on a value of the wrong type) is not in that tuple and
escapes uncaught. -/

/-- A Python/JSON value: string, number, mapping or sequence. -/
inductive PyVal where
  | str (s : String)
  | num (n : Int)
  | obj (fields : List (String × PyVal))
  | list (items : List PyVal)

/-- The observable outcome of `parse_api_response`: a returned record, the
`ValueError("Invalid API response format")` raised from the caught exception
tuple, or an uncaught exception (`AttributeError`) escaping the function. -/
inductive ParseOutcome where
  | ok (record : List (String × PyVal))
  | formatError
  | uncaught

/-- Python dict assignment `d[k] = v`: replace the value in place when the key
exists, otherwise append the new binding. -/
def dictInsert (d : List (String × PyVal)) (k : String) (v : PyVal) :
    List (String × PyVal) :=
  if d.any (fun p => p.1 = k) then
    d.map (fun p => if p.1 = k then (k, v) else p)
  else d ++ [(k, v)]

/-- One iteration of the extraction loop: `currency_info["value"]` when the
entry is a mapping containing `value`, otherwise the entry itself. -/
def flattenVal : PyVal → PyVal
  | PyVal.obj fs =>
      match fs.find? (fun p => p.1 = "value") with
      | some p => p.2
      | none => PyVal.obj fs
  | v => v

/-- Prefix test on character lists. -/
def startsWith : List Char → List Char → Bool
  | _, [] => true
  | [], _ :: _ => false
  | c :: cs, p :: ps => c = p && startsWith cs ps

/-- Contiguous-sublist test on character lists. -/
def hasSubList (p : List Char) : List Char → Bool
  | [] => p.isEmpty
  | c :: cs => startsWith (c :: cs) p || hasSubList p cs

/-- Substring test between strings, as used by Python's `in` on `str`. -/
def strContains (s pat : String) : Bool :=
  hasSubList pat.toList s.toList

/-- Split a character list on a separator character (`str.split(sep)` for a
one-character separator: adjacent separators produce empty fields). -/
def splitOnChar (sep : Char) : List Char → List (List Char)
  | [] => [[]]
  | c :: cs =>
      if c = sep then [] :: splitOnChar sep cs
      else
        match splitOnChar sep cs with
        | [] => [[c]]
        | g :: gs => (c :: g) :: gs

/-- `s.split(sep)` for a one-character separator, as a string operation. -/
def pySplit1 (s : String) (sep : Char) : List String :=
  (splitOnChar sep s.toList).map (fun cs => String.mk cs)

/-- Python's `k in v`: key lookup on a mapping, substring test on a string,
membership on a sequence; a `TypeError` (modelled as `Except.error`) on a
number. -/
def pyContains : PyVal → String → Except Unit Bool
  | PyVal.obj fs, k => Except.ok (fs.any (fun p => p.1 = k))
  | PyVal.str s, k => Except.ok (strContains s k)
  | PyVal.list xs, k =>
      Except.ok (xs.any (fun v => match v with | PyVal.str s => s = k | _ => false))
  | PyVal.num _, _ => Except.error ()

/-- Python's `v[k]` with a string key: lookup on a mapping (`KeyError` when
absent), `TypeError` on any other type.  Both exceptions are in the caught
tuple, so both are modelled as `Except.error`. -/
def pyGetItemStr : PyVal → String → Except Unit PyVal
  | PyVal.obj fs, k =>
      match fs.find? (fun p => p.1 = k) with
      | some p => Except.ok p.2
      | none => Except.error ()
  | _, _ => Except.error ()

/-- The date-extraction half of `parse_api_response`: read
`meta.last_updated_at`, keep the part before the first `T`, and fall back to
the current date (passed in as `today`) when the timestamp is missing. -/
def finishDate (today : String) (api_data : List (String × PyVal))
    (rate_data : List (String × PyVal)) : ParseOutcome :=
  match api_data.find? (fun p => p.1 = "meta") with
  | none => ParseOutcome.ok (dictInsert rate_data "Date" (PyVal.str today))
  | some pm =>
      match pyContains pm.2 "last_updated_at" with
      | Except.error _ => ParseOutcome.formatError
      | Except.ok false => ParseOutcome.ok (dictInsert rate_data "Date" (PyVal.str today))
      | Except.ok true =>
          match pyGetItemStr pm.2 "last_updated_at" with
          | Except.error _ => ParseOutcome.formatError
          | Except.ok (PyVal.str s) =>
              ParseOutcome.ok
                (dictInsert rate_data "Date" (PyVal.str ((pySplit1 s 'T').headD "")))
          | Except.ok _ => ParseOutcome.uncaught

/-- `ExchangeRateProcessor.parse_api_response`.  When the `data` key is
absent the extraction loop is skipped entirely and `rate_data` stays empty;
when it is present with a non-mapping value, `.items()` raises an
`AttributeError`, which is not in the caught tuple and escapes uncaught. -/
def parse_api_response (today : String) (api_data : List (String × PyVal)) :
    ParseOutcome :=
  match api_data.find? (fun p => p.1 = "data") with
  | some ⟨_, PyVal.obj entries⟩ =>
      finishDate today api_data
        (entries.foldl (fun d p => dictInsert d p.1 (flattenVal p.2)) [])
  | some _ => ParseOutcome.uncaught
  | none => finishDate today api_data []

/-- Well-formedness of the `meta` section: absent, or a mapping whose
`last_updated_at` (if any) is a string.  Exactly the payloads on which the
date-extraction half can neither raise a caught `TypeError`/`KeyError` nor an
uncaught `AttributeError`. -/
def metaOk (api_data : List (String × PyVal)) : Bool :=
  match api_data.find? (fun p => p.1 = "meta") with
  | none => true
  | some ⟨_, PyVal.obj fs⟩ =>
      match fs.find? (fun p => p.1 = "last_updated_at") with
      | none => true
      | some ⟨_, PyVal.str _⟩ => true
      | some _ => false
  | some _ => false

/-! ## Ad-spend pipeline: rows and the merge (`timezone_and_currency_unification.py`) -/

/-- An ad-spend record, with the columns the pipeline reads or writes.  The
`astype(str)` coercions of `merge_datasets` are identities here because the
string-typed columns are already carried as strings, and
`pd.to_numeric(errors="coerce")` is the identity on `amount_spend : Option
Rat` (with `none` standing for `NaN`). -/
structure AdRow where
  date_start : String
  date_stop : String
  account_id : String
  ad_set_id : String
  ad_set_name : String
  campaign_name : String
  hour : String
  source_datetime : String
  amount_spend : Option Rat
deriving DecidableEq, Repr

/-- The composite deduplication key of the ad-spend merge. -/
def adKey (r : AdRow) : String × String × String :=
  (r.source_datetime, r.account_id, r.ad_set_id)

/-- Ordering of provenance-tagged rows by the `source` tag
(`sort_values("source", ascending=True)`). -/
def tagLe (a b : AdRow × String) : Prop := a.2 ≤ b.2

instance : DecidableRel tagLe := fun a b =>
  inferInstanceAs (Decidable (a.2 ≤ b.2))

instance : IsTotal (AdRow × String) tagLe := ⟨fun a b => le_total a.2 b.2⟩

instance : IsTrans (AdRow × String) tagLe := ⟨fun _ _ _ h1 h2 => le_trans h1 h2⟩

/-- Ordering of ad-spend rows by `source_datetime`
(`sort_values("source_datetime")`). -/
def sdtLe (a b : AdRow) : Prop := a.source_datetime ≤ b.source_datetime

instance : DecidableRel sdtLe := fun a b =>
  inferInstanceAs (Decidable (a.source_datetime ≤ b.source_datetime))

instance : IsTotal AdRow sdtLe := ⟨fun a b => le_total a.source_datetime b.source_datetime⟩

instance : IsTrans AdRow sdtLe := ⟨fun _ _ _ h1 h2 => le_trans h1 h2⟩

/-- `df.drop_duplicates(subset=key, keep="first")`: a row is kept iff no
earlier row has the same key, kept rows staying in their original relative
order; equivalently, keep-last on the reversed list, reversed back. -/
def dropDupKeepFirst {α κ : Type} [DecidableEq κ] (key : α → κ) (l : List α) :
    List α :=
  (dropDupKeepLast key l.reverse).reverse

/-- `DataProcessor.merge_datasets`: tag the new rows `"1. Coupler"` and the
historical rows `"2. GBQ"`, concatenate new-then-historical, sort ascending by
the tag, deduplicate on `(source_datetime, account_id, ad_set_id)` keeping the
first occurrence, drop the tag and sort by `source_datetime`. -/
def merge_datasets (new_data historical_data : List AdRow) : List AdRow :=
  let tagged : List (AdRow × String) :=
    new_data.map (fun r => (r, "1. Coupler")) ++
      historical_data.map (fun r => (r, "2. GBQ"))
  let sorted := List.insertionSort tagLe tagged
  let deduped := dropDupKeepFirst (fun p => adKey p.1) sorted
  List.insertionSort sdtLe (deduped.map Prod.fst)

/-! ## Ad-spend pipeline: the timezone resolver

`pendulum` datetimes are embedded as a local wall-clock time plus a fixed
UTC offset in minutes; the timezone database is modelled as a finite table of
zone names with fixed offsets.  `pendulum.parse(s, tz=...)` accepts here the
ISO shape `YYYY-MM-DDTHH:MM:SS` that `process_hour_data` composes from
`date_start` and the hour column. -/

/-- A local wall-clock timestamp. -/
structure Wall where
  year : Nat
  month : Nat
  day : Nat
  hour : Nat
  minute : Nat
  second : Nat
deriving DecidableEq, Repr

/-- An aware `pendulum` datetime: wall-clock fields plus a UTC offset in
minutes. -/
structure PDateTime where
  wall : Wall
  offset : Int
deriving DecidableEq, Repr

/-- The sentinel `pendulum.datetime(1999, 1, 1)` (UTC). -/
def pendulumSentinel : PDateTime := ⟨⟨1999, 1, 1, 0, 0, 0⟩, 0⟩

/-- The timezone database, with each zone's UTC offset in minutes. -/
def tzdb : List (String × Int) :=
  [("UTC", 0), ("US/Pacific", -480), ("US/Eastern", -300),
   ("America/Chicago", -360), ("America/New_York", -300),
   ("Asia/Manila", 480), ("Australia/Sydney", 600)]

/-- Gregorian leap year. -/
def isLeap (y : Nat) : Bool :=
  (y % 4 = 0 && y % 100 != 0) || y % 400 = 0

/-- Number of days in a month. -/
def daysInMonth (y m : Nat) : Nat :=
  if m = 2 then (if isLeap y then 29 else 28)
  else if m = 4 || m = 6 || m = 9 || m = 11 then 30
  else 31

/-- The calendar day after `w` (time fields unchanged). -/
def nextDay (w : Wall) : Wall :=
  if w.day < daysInMonth w.year w.month then { w with day := w.day + 1 }
  else if w.month < 12 then { w with month := w.month + 1, day := 1 }
  else { w with year := w.year + 1, month := 1, day := 1 }

/-- The calendar day before `w` (time fields unchanged). -/
def prevDay (w : Wall) : Wall :=
  if 1 < w.day then { w with day := w.day - 1 }
  else if 1 < w.month then
    { w with month := w.month - 1, day := daysInMonth w.year (w.month - 1) }
  else { w with year := w.year - 1, month := 12, day := 31 }

/-- Shift a wall-clock time by `delta` minutes, `|delta| < 1440`, carrying or
borrowing at most one calendar day. -/
def shiftWall (w : Wall) (delta : Int) : Wall :=
  let tot : Int := (w.hour : Int) * 60 + (w.minute : Int) + delta
  if tot < 0 then
    let t := (tot + 1440).toNat
    let w' := prevDay w
    { w' with hour := t / 60, minute := t % 60 }
  else if 1440 ≤ tot then
    let t := (tot - 1440).toNat
    let w' := nextDay w
    { w' with hour := t / 60, minute := t % 60 }
  else
    { w with hour := tot.toNat / 60, minute := tot.toNat % 60 }

/-- `dt.in_tz(zone)`: the same instant displayed in `zone`.  The pipeline only
calls it with the constant `"US/Pacific"`; an unknown zone is left as the
identity. -/
def in_tz (dt : PDateTime) (zone : String) : PDateTime :=
  match tzdb.find? (fun e => e.1 = zone) with
  | none => dt
  | some e => ⟨shiftWall dt.wall (e.2 - dt.offset), e.2⟩

/-- Numeric value of a decimal digit character, or `none`. -/
def digitVal (c : Char) : Option Nat :=
  if c.isDigit then some (c.toNat - 48) else none

/-- Two decimal digit characters as a number. -/
def twoDigits (a b : Char) : Option Nat := do
  let x ← digitVal a
  let y ← digitVal b
  pure (x * 10 + y)

/-- Parse a naive local timestamp of the composed shape
`YYYY-MM-DDTHH:MM:SS`, validating the calendar and clock ranges; `none`
models `pendulum`'s `ParsingException`. -/
def parseISO (s : String) : Option Wall := do
  match s.toList with
  | [y1, y2, y3, y4, c1, m1, m2, c2, d1, d2, ct, h1, h2, c3, mi1, mi2, c4, s1, s2] =>
    if c1 = '-' && c2 = '-' && ct = 'T' && c3 = ':' && c4 = ':' then
      let yh ← twoDigits y1 y2
      let yl ← twoDigits y3 y4
      let mo ← twoDigits m1 m2
      let d ← twoDigits d1 d2
      let h ← twoDigits h1 h2
      let mi ← twoDigits mi1 mi2
      let se ← twoDigits s1 s2
      let y := yh * 100 + yl
      if 1 ≤ mo && mo ≤ 12 && 1 ≤ d && d ≤ daysInMonth y mo &&
          h ≤ 23 && mi ≤ 59 && se ≤ 59 then
        pure ⟨y, mo, d, h, mi, se⟩
      else none
    else none
  | _ => none

/-- Left-pad to two digits. -/
def pad2 (n : Nat) : String :=
  if n < 10 then "0" ++ toString n else toString n

/-- Left-pad to four digits. -/
def pad4 (n : Nat) : String :=
  if n < 10 then "000" ++ toString n
  else if n < 100 then "00" ++ toString n
  else if n < 1000 then "0" ++ toString n
  else toString n

/-- Render a UTC offset in minutes as `±HH:MM`. -/
def offsetStr (off : Int) : String :=
  let sign := if off < 0 then "-" else "+"
  let a := off.natAbs
  sign ++ pad2 (a / 60) ++ ":" ++ pad2 (a % 60)

/-- `str(dt)` on a `pendulum` datetime: ISO-8601 with offset. -/
def pdStr (dt : PDateTime) : String :=
  pad4 dt.wall.year ++ "-" ++ pad2 dt.wall.month ++ "-" ++ pad2 dt.wall.day ++
    "T" ++ pad2 dt.wall.hour ++ ":" ++ pad2 dt.wall.minute ++ ":" ++
    pad2 dt.wall.second ++ offsetStr dt.offset

/-- `DataProcessor.parse_datetime_with_timezone`: `pendulum.parse(s, tz=tz)`
with the caught failures collapsed to the sentinel.  A `NaN` timezone (no
join match, `none` here) raises a caught `ValueError`; a blank or unknown
zone name raises a caught `InvalidTimezone (ValueError)`; an unparseable
timestamp raises a caught `ParsingException`.  All three return
`pendulum.datetime(1999, 1, 1)`. -/
def parse_datetime_with_timezone (source_datetime : String)
    (timezone : Option String) : PDateTime :=
  match timezone with
  | none => pendulumSentinel
  | some z =>
      match tzdb.find? (fun e => e.1 = z) with
      | none => pendulumSentinel
      | some e =>
          match parseISO source_datetime with
          | none => pendulumSentinel
          | some w => ⟨w, e.2⟩

/-- The result row of `process_timezones`: the original columns with
`source_datetime` replaced by the stringified parsed timestamp, plus the
joined `timezone` column (`none` = `NaN`) and the stringified
`pacific_datetime`. -/
structure TZProcessedRow where
  row : AdRow
  timezone : Option String
  pacific_datetime : String
deriving DecidableEq, Repr

/-- The timezone cleanup in `get_timezone_data`:
`timezone_df["timezone"].str.rsplit(" ").str[-1]`, the trailing
space-delimited token of the raw database value. -/
def cleanTZ (s : String) : String :=
  (pySplit1 s ' ').getLastD ""

/-- The cleaned timezone lookup table built by `get_timezone_data` from the
`(adaccount_id, timezone)` rows of the side table. -/
def cleanTimezoneTable (raw : List (String × String)) : List (String × String) :=
  raw.map (fun e => (e.1, cleanTZ e.2))

/-- The left join `df.merge(timezone_df, how="left", left_on="account_id",
right_on="adaccount_id")`: each row is paired with every matching timezone
entry, or with `none` (`NaN`) when there is no match. -/
def joinTimezones (df : List AdRow) (timezone_df : List (String × String)) :
    List (AdRow × Option String) :=
  df.flatMap (fun r =>
    let ms := timezone_df.filter (fun e => e.1 = r.account_id)
    if ms.isEmpty then [(r, none)] else ms.map (fun e => (r, some e.2)))

/-- The joined working rows of `process_timezones`, with the cleaned table. -/
def joinedRows (df : List AdRow) (raw_tz : List (String × String)) :
    List (AdRow × Option String) :=
  joinTimezones df (cleanTimezoneTable raw_tz)

/-- Per-row transformation of `process_timezones`: parse the local timestamp
in the joined timezone, convert to `US/Pacific`, and stringify both for SQL
compatibility. -/
def procRow (p : AdRow × Option String) : TZProcessedRow :=
  let dt := parse_datetime_with_timezone p.1.source_datetime p.2
  { row := { p.1 with source_datetime := pdStr dt },
    timezone := p.2,
    pacific_datetime := pdStr (in_tz dt "US/Pacific") }

/-- The error test of `parse_with_error_tracking`: a parsed year of 1999
marks the row as failed and records its joined timezone value. -/
def rowIsError (p : AdRow × Option String) : Bool :=
  (parse_datetime_with_timezone p.1.source_datetime p.2).wall.year = 1999

/-- The final filter over collected error timezones:
`[tz for tz in error_timezones if tz and tz != 'Unknown']`.  A `NaN`
(`none`) is truthy and survives; an empty string is falsy and is dropped. -/
def errKeep : Option String → Bool
  | none => true
  | some s => s ≠ "" && s ≠ "Unknown"

/-- `DataProcessor.process_timezones` (with the timezone side table passed in
for its database read): join the timezones, parse every row recording
failures, convert to Pacific time, and return the rows together with the
deduplicated error-timezone list. -/
def process_timezones (df : List AdRow) (raw_tz : List (String × String)) :
    List TZProcessedRow × List (Option String) :=
  ((joinedRows df raw_tz).map procRow,
   ((((joinedRows df raw_tz).filter rowIsError).map Prod.snd).filter errKeep).dedup)

/-- Example ad-spend rows and timezone table used in concrete
instantiations. -/
def exCoupler : AdRow :=
  { date_start := "2024-03-05", date_stop := "2024-03-05", account_id := "a",
    ad_set_id := "s1", ad_set_name := "new-name", campaign_name := "c",
    hour := "07:00:00", source_datetime := "2024-03-05T07:00:00",
    amount_spend := some 5 }

def exGbq : AdRow :=
  { exCoupler with ad_set_name := "old-name", amount_spend := some 7 }

def exRowBlank : AdRow := { exCoupler with account_id := "pb" }

def exRowBad : AdRow := { exCoupler with account_id := "pu" }

def exRowMissing : AdRow := { exCoupler with account_id := "pm" }

def exRowGood : AdRow := { exCoupler with account_id := "pg" }

def exTZTable : List (String × String) :=
  [("pb", ""), ("pu", "Mars/Olympus"), ("pg", "US/Pacific")]

/-! ## Helper lemmas: deduplication and sorting -/

theorem dropDupKeepLast_sublist {α κ : Type} [DecidableEq κ] (key : α → κ) :
    ∀ l : List α, List.Sublist (dropDupKeepLast key l) l := by
  intro l
  induction l with
  | nil => exact List.Sublist.refl []
  | cons x xs ih =>
    rw [dropDupKeepLast]
    split
    · exact ih.cons x
    · exact ih.cons₂ x

theorem getLast?_cons_ne_nil {α : Type} (x : α) {l : List α} (h : l ≠ []) :
    (x :: l).getLast? = l.getLast? := by
  cases l with
  | nil => exact absurd rfl h
  | cons b t => exact List.getLast?_cons_cons

theorem dropDupKeepLast_filter {α κ : Type} [DecidableEq κ] (key : α → κ)
    (l : List α) (k : κ) :
    (dropDupKeepLast key l).filter (fun x => key x = k)
      = ((l.filter (fun x => key x = k)).getLast?).toList := by
  induction l with
  | nil => rfl
  | cons x xs ih =>
    rw [dropDupKeepLast]
    by_cases hx : xs.any (fun y => key y = key x) = true
    · rw [if_pos hx]
      by_cases hk : key x = k
      · obtain ⟨y, hy, hyk⟩ := List.any_eq_true.mp hx
        have hyk' : key y = key x := by simpa using hyk
        have hymem : y ∈ xs.filter (fun z => key z = k) :=
          List.mem_filter.mpr ⟨hy, by simp [hyk', hk]⟩
        have hfne : xs.filter (fun z => key z = k) ≠ [] := by
          intro hemp
          rw [hemp] at hymem
          exact (List.not_mem_nil y) hymem
        rw [List.filter_cons_of_pos (by simp [hk]), getLast?_cons_ne_nil x hfne, ih]
      · rw [List.filter_cons_of_neg (by simp [hk]), ih]
    · rw [if_neg hx]
      by_cases hk : key x = k
      · have hfnil : xs.filter (fun z => key z = k) = [] := by
          rw [List.filter_eq_nil_iff]
          intro a ha hak
          have hak' : key a = k := by simpa using hak
          exact hx (List.any_eq_true.mpr ⟨a, ha, by simp [hak', hk]⟩)
        rw [List.filter_cons_of_pos (by simp [hk]), List.filter_cons_of_pos (by simp [hk]),
          ih, hfnil]
        rfl
      · rw [List.filter_cons_of_neg (by simp [hk]), List.filter_cons_of_neg (by simp [hk]), ih]

theorem dropDupKeepLast_map_nodup {α κ : Type} [DecidableEq κ] (key : α → κ) :
    ∀ l : List α, ((dropDupKeepLast key l).map key).Nodup := by
  intro l
  induction l with
  | nil => simp [dropDupKeepLast]
  | cons x xs ih =>
    rw [dropDupKeepLast]
    split
    · exact ih
    · rename_i hx
      rw [List.map_cons]
      refine List.nodup_cons.mpr ⟨?_, ih⟩
      intro hmem
      obtain ⟨a, ha, hak⟩ := List.mem_map.mp hmem
      have ha' : a ∈ xs := (dropDupKeepLast_sublist key xs).subset ha
      exact hx (List.any_eq_true.mpr ⟨a, ha', by simp [hak]⟩)

theorem dropDupKeepLast_eq_self {α κ : Type} [DecidableEq κ] (key : α → κ) :
    ∀ l : List α, (l.map key).Nodup → dropDupKeepLast key l = l := by
  intro l
  induction l with
  | nil => intro _; rfl
  | cons x xs ih =>
    intro h
    rw [List.map_cons, List.nodup_cons] at h
    rw [dropDupKeepLast, if_neg, ih h.2]
    intro hx
    obtain ⟨y, hy, hyk⟩ := List.any_eq_true.mp hx
    exact h.1 (List.mem_map.mpr ⟨y, hy, by simpa using hyk⟩)

theorem dropDupKeepLast_append {α κ : Type} [DecidableEq κ] (key : α → κ)
    (l₁ l₂ : List α) (h : ∀ a ∈ l₁, ∃ b ∈ l₂, key b = key a) :
    dropDupKeepLast key (l₁ ++ l₂) = dropDupKeepLast key l₂ := by
  induction l₁ with
  | nil => rfl
  | cons x l₁ ih =>
    have hany : (l₁ ++ l₂).any (fun y => key y = key x) = true := by
      obtain ⟨b, hb, hbk⟩ := h x (List.mem_cons_self x l₁)
      exact List.any_eq_true.mpr ⟨b, List.mem_append_right l₁ hb, by simp [hbk]⟩
    rw [List.cons_append, dropDupKeepLast, if_pos hany]
    exact ih (fun a ha => h a (List.mem_cons_of_mem x ha))

theorem dropDupKeepFirst_filter {α κ : Type} [DecidableEq κ] (key : α → κ)
    (l : List α) (k : κ) :
    (dropDupKeepFirst key l).filter (fun x => key x = k)
      = ((l.filter (fun x => key x = k)).head?).toList := by
  unfold dropDupKeepFirst
  rw [List.filter_reverse, dropDupKeepLast_filter, List.filter_reverse,
    List.getLast?_reverse]
  cases (l.filter (fun x => key x = k)).head? <;> rfl

theorem perm_eq_of_length_le_one {α : Type} {l m : List α} (h : l.Perm m)
    (hm : m.length ≤ 1) : l = m := by
  cases m with
  | nil => exact List.perm_nil.mp h
  | cons a t =>
    cases t with
    | nil => exact List.perm_singleton.mp h
    | cons b t' => simp at hm

theorem toList_length_le_one {α : Type} (o : Option α) : o.toList.length ≤ 1 := by
  cases o <;> simp

theorem merge_with_historical_filter {α : Type} [DecidableEq α]
    (new_data historical_data : List (Row α)) (d : Int) :
    (merge_with_historical new_data historical_data).filter (fun r => r.date = d)
      = (((historical_data ++ new_data).filter (fun r => r.date = d)).getLast?).toList := by
  have hperm :=
    (List.perm_insertionSort Row.dateLe
        (dropDupKeepLast Row.date (historical_data ++ new_data))).filter
      (fun r => decide (r.date = d))
  rw [dropDupKeepLast_filter Row.date (historical_data ++ new_data) d] at hperm
  exact perm_eq_of_length_le_one hperm (toList_length_le_one _)

theorem merge_with_historical_sorted {α : Type} [DecidableEq α]
    (new_data historical_data : List (Row α)) :
    List.Sorted Row.dateLe (merge_with_historical new_data historical_data) :=
  List.sorted_insertionSort Row.dateLe _

theorem merge_with_historical_dates_nodup {α : Type} [DecidableEq α]
    (new_data historical_data : List (Row α)) :
    ((merge_with_historical new_data historical_data).map Row.date).Nodup := by
  have hperm :=
    (List.perm_insertionSort Row.dateLe
        (dropDupKeepLast Row.date (historical_data ++ new_data))).map Row.date
  exact hperm.nodup_iff.mpr (dropDupKeepLast_map_nodup Row.date _)

theorem sorted_getLast?_max {α : Type} :
    ∀ l : List (Row α), List.Sorted Row.dateLe l →
      ∀ last, l.getLast? = some last → ∀ x ∈ l, x.date ≤ last.date := by
  intro l
  induction l with
  | nil => intro _ last h; simp at h
  | cons a t ih =>
    intro hs last hlast x hx
    cases t with
    | nil =>
      simp at hlast hx
      rw [hx, hlast]
    | cons b t' =>
      rw [List.getLast?_cons_cons] at hlast
      rcases List.mem_cons.mp hx with hxa | hxt
      · rw [hxa]
        exact List.rel_of_sorted_cons hs last (List.mem_of_getLast?_eq_some hlast)
      · exact ih hs.of_cons last hlast x hxt

/-! ## Claims about the Rate-pipeline reconciliation engine -/

/-- C1: for every historical batch and new batch that each contain a record
for the same `Date`, the batch produced by `merge_with_historical` contains
exactly one record for that date, and that record is the last occurrence in
the historical-then-new concatenation order — hence the new batch's record
and its currency values win. -/
theorem merge_with_historical_new_wins {α : Type} [DecidableEq α]
    (new_data historical_data : List (Row α)) (d : Int)
    (_hh : d ∈ historical_data.map Row.date) (hn : d ∈ new_data.map Row.date) :
    ((merge_with_historical new_data historical_data).filter
        (fun r => r.date = d)).length = 1 ∧
    (merge_with_historical new_data historical_data).filter (fun r => r.date = d)
      = (((historical_data ++ new_data).filter (fun r => r.date = d)).getLast?).toList := by
  have hfilter := merge_with_historical_filter new_data historical_data d
  refine ⟨?_, hfilter⟩
  rw [hfilter]
  obtain ⟨r, hr, hrd⟩ := List.mem_map.mp hn
  have hmem : r ∈ (historical_data ++ new_data).filter (fun x => x.date = d) :=
    List.mem_filter.mpr ⟨List.mem_append_right _ hr, by simp [hrd]⟩
  have hne : (historical_data ++ new_data).filter (fun x => x.date = d) ≠ [] := by
    intro hemp
    rw [hemp] at hmem
    exact (List.not_mem_nil r) hmem
  rw [List.getLast?_eq_getLast_of_ne_nil hne]
  rfl

theorem merge_with_historical_new_wins_witness :
    ((merge_with_historical ([⟨1, 136⟩] : List (Row Int)) [⟨1, 135⟩]).filter
        (fun r => r.date = 1)).length = 1 ∧
    (merge_with_historical ([⟨1, 136⟩] : List (Row Int)) [⟨1, 135⟩]).filter
        (fun r => r.date = 1)
      = (((([⟨1, 135⟩] : List (Row Int)) ++ ([⟨1, 136⟩] : List (Row Int))).filter
          (fun r => r.date = 1)).getLast?).toList :=
  merge_with_historical_new_wins [⟨1, 136⟩] [⟨1, 135⟩] 1 (by decide) (by decide)

/-- C3: for historical and new Rate batches with (internally and mutually)
distinct dates, the merge output has row count historical + new, is sorted
ascending by `Date`, and contains no duplicate dates. -/
theorem merge_with_historical_disjoint {α : Type} [DecidableEq α]
    (new_data historical_data : List (Row α))
    (hh : (historical_data.map Row.date).Nodup)
    (hn : (new_data.map Row.date).Nodup)
    (hdisj : ∀ d ∈ historical_data.map Row.date, d ∉ new_data.map Row.date) :
    (merge_with_historical new_data historical_data).length
        = historical_data.length + new_data.length ∧
    List.Sorted Row.dateLe (merge_with_historical new_data historical_data) ∧
    ((merge_with_historical new_data historical_data).map Row.date).Nodup := by
  refine ⟨?_, merge_with_historical_sorted new_data historical_data,
    merge_with_historical_dates_nodup new_data historical_data⟩
  have hcomb : ((historical_data ++ new_data).map Row.date).Nodup := by
    rw [List.map_append]
    exact List.Nodup.append hh hn hdisj
  unfold merge_with_historical
  rw [dropDupKeepLast_eq_self Row.date _ hcomb,
    (List.perm_insertionSort Row.dateLe _).length_eq, List.length_append]

theorem merge_with_historical_disjoint_witness :
    (merge_with_historical ([⟨3, 3⟩] : List (Row Int)) [⟨1, 1⟩, ⟨2, 2⟩]).length = 2 + 1 ∧
    List.Sorted Row.dateLe (merge_with_historical ([⟨3, 3⟩] : List (Row Int)) [⟨1, 1⟩, ⟨2, 2⟩]) ∧
    ((merge_with_historical ([⟨3, 3⟩] : List (Row Int)) [⟨1, 1⟩, ⟨2, 2⟩]).map Row.date).Nodup :=
  merge_with_historical_disjoint [⟨3, 3⟩] [⟨1, 1⟩, ⟨2, 2⟩]
    (by decide) (by decide) (by decide)

/-- C7: merging a date-deduplicated, date-sorted batch with itself as both
the new and the historical input returns that batch unchanged. -/
theorem merge_with_historical_idempotent {α : Type} [DecidableEq α]
    (b : List (Row α)) (hnd : (b.map Row.date).Nodup)
    (hs : List.Sorted Row.dateLe b) :
    merge_with_historical b b = b := by
  unfold merge_with_historical
  rw [dropDupKeepLast_append Row.date b b (fun a ha => ⟨a, ha, rfl⟩),
    dropDupKeepLast_eq_self Row.date b hnd, hs.insertionSort_eq]

theorem merge_with_historical_idempotent_witness :
    merge_with_historical ([⟨1, 135⟩, ⟨2, 136⟩] : List (Row Int)) [⟨1, 135⟩, ⟨2, 136⟩]
      = [⟨1, 135⟩, ⟨2, 136⟩] :=
  merge_with_historical_idempotent [⟨1, 135⟩, ⟨2, 136⟩] (by decide) (by decide)

/-- C5: on a non-empty date-sorted batch, `add_future_placeholders` with the
default horizon 2 appends exactly two rows replicating the last row's
non-date fields at the last date plus one and plus two; on the empty batch it
is the identity. -/
theorem add_future_placeholders_spec {α : Type} (df : List (Row α))
    (_hs : List.Sorted Row.dateLe df) (h : df ≠ []) :
    add_future_placeholders ([] : List (Row α)) 2 = [] ∧
    add_future_placeholders df 2
        = df ++ [⟨(df.getLast h).date + 1, (df.getLast h).vals⟩,
                 ⟨(df.getLast h).date + 2, (df.getLast h).vals⟩] ∧
    (add_future_placeholders df 2).length = df.length + 2 := by
  have hlast : df.getLast? = some (df.getLast h) :=
    List.getLast?_eq_getLast_of_ne_nil h
  have heq : add_future_placeholders df 2
      = df ++ [⟨(df.getLast h).date + 1, (df.getLast h).vals⟩,
               ⟨(df.getLast h).date + 2, (df.getLast h).vals⟩] := by
    unfold add_future_placeholders
    rw [hlast]
    simp [List.range_succ, Row.mk.injEq]
    omega
  refine ⟨rfl, heq, ?_⟩
  rw [heq]
  simp

theorem add_future_placeholders_spec_witness :
    add_future_placeholders ([] : List (Row Int)) 2 = [] ∧
    add_future_placeholders ([⟨5, 7⟩] : List (Row Int)) 2
        = [⟨5, 7⟩] ++ [⟨(([⟨5, 7⟩] : List (Row Int)).getLast (by decide)).date + 1,
                        (([⟨5, 7⟩] : List (Row Int)).getLast (by decide)).vals⟩,
                       ⟨(([⟨5, 7⟩] : List (Row Int)).getLast (by decide)).date + 2,
                        (([⟨5, 7⟩] : List (Row Int)).getLast (by decide)).vals⟩] ∧
    (add_future_placeholders ([⟨5, 7⟩] : List (Row Int)) 2).length
        = ([⟨5, 7⟩] : List (Row Int)).length + 2 :=
  add_future_placeholders_spec [⟨5, 7⟩] (by decide) (by decide)

theorem placeholders_preserve {α : Type} (m : List (Row α))
    (hs : List.Sorted Row.dateLe m) (hnd : (m.map Row.date).Nodup) :
    ((add_future_placeholders m 2).map Row.date).Nodup ∧
    List.Sorted Row.dateLe (add_future_placeholders m 2) := by
  cases hcase : m.getLast? with
  | none =>
      have hm : m = [] := List.getLast?_eq_none_iff.mp hcase
      subst hm
      constructor <;> simp [add_future_placeholders]
  | some last =>
      have hmax : ∀ x ∈ m, x.date ≤ last.date := sorted_getLast?_max m hs last hcase
      have hunfold : add_future_placeholders m 2
          = m ++ [⟨last.date + 1, last.vals⟩, ⟨last.date + 2, last.vals⟩] := by
        unfold add_future_placeholders
        rw [hcase]
        simp [List.range_succ, Row.mk.injEq]
        omega
      rw [hunfold]
      constructor
      · rw [List.map_append]
        refine List.Nodup.append hnd ?_ ?_
        · simp
        · intro a ha hb
          obtain ⟨x, hx, hxa⟩ := List.mem_map.mp ha
          have hle := hmax x hx
          simp at hb
          rcases hb with hb | hb <;> omega
      · refine List.pairwise_append.mpr ⟨hs, ?_, ?_⟩
        · simp [List.sorted_cons, Row.dateLe]
        · intro a ha b hb
          have hle := hmax a ha
          simp at hb
          rcases hb with hb | hb <;> (rw [hb]; show a.date ≤ _; simp; omega)

/-- C9: for every historical and new Rate batch, the finalized batch obtained
by `merge_with_historical` followed by `add_future_placeholders` has pairwise
distinct dates and is sorted ascending by `Date`. -/
theorem finalized_rate_batch_invariant {α : Type} [DecidableEq α]
    (new_data historical_data : List (Row α)) :
    ((add_future_placeholders (merge_with_historical new_data historical_data) 2).map
        Row.date).Nodup ∧
    List.Sorted Row.dateLe
      (add_future_placeholders (merge_with_historical new_data historical_data) 2) :=
  placeholders_preserve (merge_with_historical new_data historical_data)
    (merge_with_historical_sorted new_data historical_data)
    (merge_with_historical_dates_nodup new_data historical_data)



/-! ## Claims about the validator -/

theorem validate_data_true_iff_body (target_currencies : List String) (df : DataFrame) :
    validate_data target_currencies df = true
      ↔ validate_body target_currencies df = Except.ok true := by
  unfold validate_data
  cases hb : validate_body target_currencies df with
  | ok b => cases b <;> simp
  | error e => simp

theorem validate_body_ok_true_iff (target_currencies : List String) (df : DataFrame) :
    validate_body target_currencies df = Except.ok true ↔
      (df.rows ≠ [] ∧ df.columns ≠ [] ∧ "Date" ∈ df.columns ∧
        ∀ c ∈ target_currencies, df.columns.count c = 1) := by
  unfold validate_body
  split_ifs with h1 h2 h3 h4
  · simp only [Except.ok.injEq, Bool.false_eq_true, false_iff]
    rintro ⟨hr, hc, -, -⟩
    unfold DataFrame.empty at h1
    simp only [Bool.or_eq_true, List.isEmpty_iff] at h1
    rcases h1 with he | he
    · exact hr he
    · exact hc he
  · simp only [Except.ok.injEq, Bool.false_eq_true, false_iff]
    rintro ⟨-, -, -, hcnt⟩
    refine h3 ?_
    rw [List.filter_eq_nil_iff]
    intro c hc hnotin
    have h1c := hcnt c hc
    have hmem : c ∈ df.columns := List.count_pos_iff.mp (by omega)
    simp only [decide_eq_true_eq] at hnotin
    exact hnotin hmem
  · simp only [false_iff]
    rintro ⟨-, -, -, hcnt⟩
    obtain ⟨c, hc, hgt⟩ := List.any_eq_true.mp h4
    have hgt1 : df.columns.count c > 1 := by simpa using hgt
    have h1c := hcnt c hc
    omega
  · simp only [Except.ok.injEq, true_iff]
    have hfil : target_currencies.filter (fun c => c ∉ df.columns) = [] :=
      not_not.mp h3
    refine ⟨?_, ?_, h2, ?_⟩
    · intro hr
      exact h1 (by unfold DataFrame.empty; simp [hr])
    · intro hc
      exact h1 (by unfold DataFrame.empty; simp [hc])
    · intro c hc
      have hin : c ∈ df.columns := by
        have hni := (List.filter_eq_nil_iff.mp hfil) c hc
        simpa using hni
      have hle : df.columns.count c ≤ 1 := by
        by_contra hgt
        refine h4 (List.any_eq_true.mpr ⟨c, hc, ?_⟩)
        simp only [decide_eq_true_eq]
        omega
      have hge : 0 < df.columns.count c := List.count_pos_iff.mpr hin
      omega
  · simp only [Except.ok.injEq, Bool.false_eq_true, false_iff]
    rintro ⟨-, -, hd, -⟩
    exact h2 hd

/-- C6: the validator's decision rule.  `validate_data` rejects an empty
frame, a frame without the `Date` column, and a frame missing any configured
target-currency column, and accepts otherwise; nulls inside a present
currency column only produce a warning, which is why the null pattern of the
frame does not appear in the right-hand side. -/
theorem validate_data_decision (target_currencies : List String) (df : DataFrame) :
    validate_data target_currencies df = true ↔
      (df.rows ≠ [] ∧ df.columns ≠ [] ∧ "Date" ∈ df.columns ∧
        ∀ c ∈ target_currencies, df.columns.count c = 1) :=
  (validate_data_true_iff_body target_currencies df).trans
    (validate_body_ok_true_iff target_currencies df)

/-- C10: `validate_data` is total at its public interface: whatever the
frame, an exception raised inside the validation body is caught by the
catch-all handler and mapped to `false`, so the function always returns a
boolean. -/
theorem validate_data_maps_exception_to_false (target_currencies : List String)
    (df : DataFrame) (e : Unit)
    (h : validate_body target_currencies df = Except.error e) :
    validate_data target_currencies df = false := by
  unfold validate_data
  rw [h]

theorem validate_data_maps_exception_to_false_witness :
    validate_body ["CAD"] ⟨["Date", "CAD", "CAD"], [[some 1, some 2, none]]⟩
        = Except.error () ∧
    validate_data ["CAD"] ⟨["Date", "CAD", "CAD"], [[some 1, some 2, none]]⟩ = false :=
  ⟨rfl,
   validate_data_maps_exception_to_false ["CAD"]
     ⟨["Date", "CAD", "CAD"], [[some 1, some 2, none]]⟩ () rfl⟩

/-! ## Claims about the response parser -/

/-- C8 counterexample: a payload with no `data` section but a well-formed
`meta` section makes `parse_api_response` return a record (containing only
`Date`) instead of failing with a format error, and a payload whose `data`
section has the wrong type (a string) fails with an uncaught
`AttributeError`, not with the `ValueError` format error. -/
theorem parse_api_response_counterexample :
    parse_api_response "1970-01-01"
        [("meta", PyVal.obj [("last_updated_at", PyVal.str "2024-01-01T00:00:00Z")])]
      = ParseOutcome.ok [("Date", PyVal.str "2024-01-01")] ∧
    parse_api_response "1970-01-01" [("data", PyVal.str "oops")]
      = ParseOutcome.uncaught :=
  ⟨rfl, rfl⟩

/-- C8 (amended): when the currency `data` section is absent,
`parse_api_response` does not fail — on any payload whose `meta` section is
absent or well-formed it returns a record containing only the `Date` field;
when the `data` section is present but is not a mapping, the function fails,
but with an uncaught `AttributeError` (from calling `.items()`), not with the
`ValueError` format error. -/
theorem parse_api_response_amended (today : String)
    (api1 api2 : List (String × PyVal)) (v : PyVal)
    (h1 : api1.find? (fun p => p.1 = "data") = none) (hm : metaOk api1 = true)
    (h2 : api2.find? (fun p => p.1 = "data") = some ("data", v))
    (hv : ∀ fs, v ≠ PyVal.obj fs) :
    (∃ s, parse_api_response today api1 = ParseOutcome.ok [("Date", PyVal.str s)]) ∧
    parse_api_response today api2 = ParseOutcome.uncaught := by
  constructor
  · unfold parse_api_response
    rw [h1]
    show ∃ s, finishDate today api1 [] = ParseOutcome.ok [("Date", PyVal.str s)]
    unfold metaOk at hm
    unfold finishDate
    cases hmeta : api1.find? (fun p => p.1 = "meta") with
    | none => exact ⟨today, rfl⟩
    | some pm =>
        rw [hmeta] at hm
        obtain ⟨k, pv⟩ := pm
        cases pv with
        | str s => simp at hm
        | num n => simp at hm
        | list xs => simp at hm
        | obj fs =>
            have hm2 : (match fs.find? (fun p => p.1 = "last_updated_at") with
                | none => true
                | some ⟨_, PyVal.str _⟩ => true
                | some _ => false) = true := hm
            cases hlua : fs.find? (fun p => p.1 = "last_updated_at") with
            | none =>
                have hany : fs.any (fun p => p.1 = "last_updated_at") = false := by
                  rw [List.any_eq_false]
                  intro p hp
                  have hnp := List.find?_eq_none.mp hlua p hp
                  simpa using hnp
                refine ⟨today, ?_⟩
                simp only [pyContains, hany]
                rfl
            | some q =>
                rw [hlua] at hm2
                obtain ⟨k2, qv⟩ := q
                cases qv with
                | str s =>
                    have hq := List.find?_some hlua
                    have hqmem := List.mem_of_find?_eq_some hlua
                    have hany : fs.any (fun p => p.1 = "last_updated_at") = true :=
                      List.any_eq_true.mpr ⟨_, hqmem, hq⟩
                    refine ⟨(pySplit1 s 'T').headD "", ?_⟩
                    simp only [pyContains, pyGetItemStr, hany, hlua]
                    rfl
                | num n => simp at hm2
                | obj gs => simp at hm2
                | list xs => simp at hm2
  · unfold parse_api_response
    rw [h2]
    cases v with
    | obj fs => exact absurd rfl (hv fs)
    | str s => rfl
    | num n => rfl
    | list xs => rfl

theorem parse_api_response_amended_witness :
    (∃ s, parse_api_response "1970-01-01"
        [("meta", PyVal.obj [("last_updated_at", PyVal.str "2024-01-01T00:00:00Z")])]
      = ParseOutcome.ok [("Date", PyVal.str s)]) ∧
    parse_api_response "1970-01-01" [("data", PyVal.str "oops")]
      = ParseOutcome.uncaught :=
  parse_api_response_amended "1970-01-01"
    [("meta", PyVal.obj [("last_updated_at", PyVal.str "2024-01-01T00:00:00Z")])]
    [("data", PyVal.str "oops")] (PyVal.str "oops") rfl rfl rfl
    (fun _ h => PyVal.noConfusion h)

/-! ## Claims about the ad-spend merge -/

/-- C2: primary-source-wins rule of `merge_datasets`.  For a new
(primary-source) record `r` and a historical (secondary-source) record `s`
sharing the composite key `(source_datetime, account_id, ad_set_id)` — with
`r` the unique new record for that key, per the Ad-Spend batch key-uniqueness
invariant — the merged batch retains exactly the new record `r` for that key,
regardless of concatenation order: provenance tags sort all new rows before
all historical rows and deduplication keeps the first occurrence. -/
theorem merge_datasets_primary_wins (new_data historical_data : List AdRow)
    (r s : AdRow) (hr : r ∈ new_data) (_hs : s ∈ historical_data)
    (_hkey : adKey s = adKey r)
    (huniq : ∀ q ∈ new_data, adKey q = adKey r → q = r) :
    (merge_datasets new_data historical_data).filter (fun x => adKey x = adKey r)
      = [r] := by
  unfold merge_datasets
  set tagged := new_data.map (fun x => (x, "1. Coupler")) ++
      historical_data.map (fun x => (x, "2. GBQ")) with htagged
  set sorted := List.insertionSort tagLe tagged with hsortdef
  have hdedup := dropDupKeepFirst_filter
    (fun p : AdRow × String => adKey p.1) sorted (adKey r)
  set F := sorted.filter (fun p : AdRow × String => adKey p.1 = adKey r) with hF
  have hFperm : F.Perm (tagged.filter (fun p : AdRow × String => adKey p.1 = adKey r)) :=
    (List.perm_insertionSort tagLe tagged).filter _
  have hrtag : (r, "1. Coupler") ∈ tagged := by
    rw [htagged]
    exact List.mem_append_left _ (List.mem_map.mpr ⟨r, hr, rfl⟩)
  have hrmem : (r, "1. Coupler") ∈ F := by
    rw [hF]
    refine List.mem_filter.mpr ⟨?_, by simp⟩
    rw [hsortdef]
    exact (List.perm_insertionSort tagLe tagged).mem_iff.mpr hrtag
  have hFsorted : List.Sorted tagLe F := by
    rw [hF, hsortdef]
    exact (List.sorted_insertionSort tagLe tagged).filter _
  have hFelem : ∀ p ∈ F, p = (r, "1. Coupler") ∨ p.2 = "2. GBQ" := by
    intro p hp
    have hp2 := List.mem_filter.mp (hFperm.subset hp)
    have hpkey : adKey p.1 = adKey r := by simpa using hp2.2
    rcases List.mem_append.mp hp2.1 with hnew | hhist
    · obtain ⟨q, hq, hqe⟩ := List.mem_map.mp hnew
      left
      have hq1 : q = p.1 := by rw [← hqe]
      have hqr : q = r := huniq q hq (by rw [hq1]; exact hpkey)
      rw [← hqe, hqr]
    · obtain ⟨q, hq, hqe⟩ := List.mem_map.mp hhist
      right
      rw [← hqe]
  have hhead : F.head? = some (r, "1. Coupler") := by
    cases hFc : F with
    | nil =>
        rw [hFc] at hrmem
        exact absurd hrmem (List.not_mem_nil _)
    | cons y t =>
        have hymem : y ∈ F := by
          rw [hFc]
          exact List.mem_cons_self y t
        rcases hFelem y hymem with hy | hy
        · simp [hy]
        · exfalso
          rw [hFc] at hrmem hFsorted
          rcases List.mem_cons.mp hrmem with he | ht
          · rw [← he] at hy
            have hy2 : ("1. Coupler" : String) = "2. GBQ" := hy
            exact absurd hy2 (by decide)
          · have hle := List.rel_of_sorted_cons hFsorted _ ht
            unfold tagLe at hle
            rw [hy] at hle
            have hle2 : ("2. GBQ" : String) ≤ "1. Coupler" := hle
            have hlt : ("1. Coupler" : String) < "2. GBQ" := by
              rw [String.lt_iff_toList_lt]
              decide
            exact absurd hle2 (not_le.mpr hlt)
  have hmapfilter :
      ((dropDupKeepFirst (fun p : AdRow × String => adKey p.1) sorted).map
          Prod.fst).filter (fun x => adKey x = adKey r)
        = ((dropDupKeepFirst (fun p : AdRow × String => adKey p.1) sorted).filter
            (fun p => adKey p.1 = adKey r)).map Prod.fst := by
    rw [List.filter_map]
    rfl
  have hlen :
      ((((dropDupKeepFirst (fun p : AdRow × String => adKey p.1) sorted).map
          Prod.fst)).filter (fun x => adKey x = adKey r)).length ≤ 1 := by
    rw [hmapfilter, hdedup, hhead]
    simp
  have hfinal := perm_eq_of_length_le_one
    ((List.perm_insertionSort sdtLe
      ((dropDupKeepFirst (fun p : AdRow × String => adKey p.1) sorted).map
        Prod.fst)).filter (fun x => decide (adKey x = adKey r))) hlen
  rw [hfinal, hmapfilter, hdedup, hhead]
  rfl

theorem merge_datasets_primary_wins_witness :
    (merge_datasets [exCoupler] [exGbq]).filter
        (fun x => adKey x = adKey exCoupler) = [exCoupler] :=
  merge_datasets_primary_wins [exCoupler] [exGbq] exCoupler exGbq
    (by decide) (by decide) (by decide) (by decide)

/-! ## Claims about the timezone resolver -/

theorem filter_key_length_le_one {α κ : Type} [DecidableEq κ] (key : α → κ) :
    ∀ l : List α, (l.map key).Nodup → ∀ k : κ,
      (l.filter (fun x => key x = k)).length ≤ 1 := by
  intro l
  induction l with
  | nil => intro _ k; simp
  | cons x xs ih =>
    intro hnd k
    rw [List.map_cons, List.nodup_cons] at hnd
    by_cases hk : key x = k
    · rw [List.filter_cons_of_pos (by simp [hk])]
      have hrest : xs.filter (fun y => key y = k) = [] := by
        rw [List.filter_eq_nil_iff]
        intro a ha hak
        have hak2 : key a = k := by simpa using hak
        exact hnd.1 (List.mem_map.mpr ⟨a, ha, by rw [hak2, hk]⟩)
      rw [hrest]
      simp
    · rw [List.filter_cons_of_neg (by simp [hk])]
      exact ih hnd.2 k

theorem cleanTimezoneTable_keys (raw_tz : List (String × String)) :
    (cleanTimezoneTable raw_tz).map Prod.fst = raw_tz.map Prod.fst := by
  unfold cleanTimezoneTable
  rw [List.map_map]
  rfl

theorem joinedRows_length (df : List AdRow) (raw_tz : List (String × String))
    (hkeys : (raw_tz.map Prod.fst).Nodup) :
    (joinedRows df raw_tz).length = df.length := by
  unfold joinedRows joinTimezones
  have hclean : ((cleanTimezoneTable raw_tz).map Prod.fst).Nodup := by
    rw [cleanTimezoneTable_keys]
    exact hkeys
  induction df with
  | nil => rfl
  | cons r rest ih =>
    rw [List.flatMap_cons, List.length_append, ih, List.length_cons]
    by_cases hms : ((cleanTimezoneTable raw_tz).filter
        (fun e => e.1 = r.account_id)).isEmpty
    · simp [hms]
      omega
    · have hlen1 : ((cleanTimezoneTable raw_tz).filter
          (fun e => e.1 = r.account_id)).length = 1 := by
        have hle := filter_key_length_le_one Prod.fst (cleanTimezoneTable raw_tz)
          hclean r.account_id
        have hne : ((cleanTimezoneTable raw_tz).filter
            (fun e => e.1 = r.account_id)) ≠ [] := by
          simpa [List.isEmpty_iff] using hms
        have hpos := List.length_pos.mpr hne
        omega
      simp [hms, hlen1]
      omega

/-- C4 counterexample: a record whose joined timezone is blank is assigned
the sentinel 1999-01-01 timestamp, but its (empty) timezone string is not in
the returned deduplicated error list — the list comes back empty, so the
batch-level notification would not mention this record. -/
theorem process_timezones_counterexample :
    ((process_timezones [exRowBlank] [("pb", "")]).1.map
        (fun q => q.row.source_datetime) = ["1999-01-01T00:00:00+00:00"]) ∧
    (process_timezones [exRowBlank] [("pb", "")]).2 = [] :=
  ⟨rfl, rfl⟩

/-- C4 (amended): per-record failure isolation of `process_timezones`.  A
joined record with a blank timezone gets the sentinel 1999-01-01 timestamp
but its empty string is filtered out of the final deduplicated error list; a
record with an unresolvable non-blank timezone (other than the literal
`Unknown`) gets the sentinel and its timezone string is in the list; a record
with no timezone-table match gets the sentinel and the null value is in the
list; a record with a valid timezone and parseable composed timestamp yields
the parsed local timestamp and its `US/Pacific` conversion; and no failure
aborts the batch — the output has one row per input row. -/
theorem process_timezones_amended (df : List AdRow)
    (raw_tz : List (String × String)) (p u m q : AdRow × Option String)
    (_hp : p ∈ joinedRows df raw_tz) (hu : u ∈ joinedRows df raw_tz)
    (hm : m ∈ joinedRows df raw_tz) (_hq : q ∈ joinedRows df raw_tz)
    (hpb : p.2 = some "")
    (z : String) (huz : u.2 = some z)
    (huz1 : tzdb.find? (fun e => e.1 = z) = none) (huz2 : z ≠ "")
    (huz3 : z ≠ "Unknown")
    (hmn : m.2 = none)
    (zq : String) (off : Int) (w : Wall)
    (hqz : q.2 = some zq) (hqdb : tzdb.find? (fun e => e.1 = zq) = some (zq, off))
    (hqw : parseISO q.1.source_datetime = some w) (_hqy : w.year ≠ 1999)
    (hkeys : (raw_tz.map Prod.fst).Nodup) :
    ((procRow p).row.source_datetime = "1999-01-01T00:00:00+00:00" ∧
      some "" ∉ (process_timezones df raw_tz).2) ∧
    ((procRow u).row.source_datetime = "1999-01-01T00:00:00+00:00" ∧
      some z ∈ (process_timezones df raw_tz).2) ∧
    ((procRow m).row.source_datetime = "1999-01-01T00:00:00+00:00" ∧
      (none : Option String) ∈ (process_timezones df raw_tz).2) ∧
    ((procRow q).row.source_datetime = pdStr ⟨w, off⟩ ∧
      (procRow q).pacific_datetime = pdStr (in_tz ⟨w, off⟩ "US/Pacific")) ∧
    (process_timezones df raw_tz).1.length = df.length := by
  have hparse_p : parse_datetime_with_timezone p.1.source_datetime p.2
      = pendulumSentinel := by
    rw [hpb]
    rfl
  have hparse_u : parse_datetime_with_timezone u.1.source_datetime u.2
      = pendulumSentinel := by
    rw [huz]
    unfold parse_datetime_with_timezone
    simp only [huz1]
  have hparse_m : parse_datetime_with_timezone m.1.source_datetime m.2
      = pendulumSentinel := by
    rw [hmn]
    rfl
  have hparse_q : parse_datetime_with_timezone q.1.source_datetime q.2
      = ⟨w, off⟩ := by
    rw [hqz]
    unfold parse_datetime_with_timezone
    simp only [hqdb, hqw]
  have herrmem : ∀ x ∈ joinedRows df raw_tz,
      parse_datetime_with_timezone x.1.source_datetime x.2 = pendulumSentinel →
      errKeep x.2 = true → x.2 ∈ (process_timezones df raw_tz).2 := by
    intro x hx hxparse hxkeep
    unfold process_timezones
    refine List.mem_dedup.mpr (List.mem_filter.mpr ⟨?_, hxkeep⟩)
    refine List.mem_map.mpr ⟨x, List.mem_filter.mpr ⟨hx, ?_⟩, rfl⟩
    unfold rowIsError
    rw [hxparse]
    rfl
  refine ⟨⟨?_, ?_⟩, ⟨?_, ?_⟩, ⟨?_, ?_⟩, ⟨?_, ?_⟩, ?_⟩
  · show pdStr (parse_datetime_with_timezone p.1.source_datetime p.2) = _
    rw [hparse_p]
    rfl
  · intro hmem
    unfold process_timezones at hmem
    have hk := (List.mem_filter.mp (List.mem_dedup.mp hmem)).2
    simp [errKeep] at hk
  · show pdStr (parse_datetime_with_timezone u.1.source_datetime u.2) = _
    rw [hparse_u]
    rfl
  · rw [← huz]
    refine herrmem u hu hparse_u ?_
    rw [huz]
    simp [errKeep, huz2, huz3]
  · show pdStr (parse_datetime_with_timezone m.1.source_datetime m.2) = _
    rw [hparse_m]
    rfl
  · rw [← hmn]
    exact herrmem m hm hparse_m (by rw [hmn]; rfl)
  · show pdStr (parse_datetime_with_timezone q.1.source_datetime q.2) = _
    rw [hparse_q]
  · show pdStr (in_tz (parse_datetime_with_timezone q.1.source_datetime q.2)
        "US/Pacific") = _
    rw [hparse_q]
  · show ((joinedRows df raw_tz).map procRow).length = df.length
    rw [List.length_map]
    exact joinedRows_length df raw_tz hkeys

theorem process_timezones_amended_witness :
    ((procRow (exRowBlank, some "")).row.source_datetime
        = "1999-01-01T00:00:00+00:00" ∧
      some "" ∉ (process_timezones [exRowBlank, exRowBad, exRowMissing, exRowGood]
          exTZTable).2) ∧
    ((procRow (exRowBad, some "Mars/Olympus")).row.source_datetime
        = "1999-01-01T00:00:00+00:00" ∧
      some "Mars/Olympus" ∈ (process_timezones [exRowBlank, exRowBad, exRowMissing,
          exRowGood] exTZTable).2) ∧
    ((procRow (exRowMissing, (none : Option String))).row.source_datetime
        = "1999-01-01T00:00:00+00:00" ∧
      (none : Option String) ∈ (process_timezones [exRowBlank, exRowBad, exRowMissing,
          exRowGood] exTZTable).2) ∧
    ((procRow (exRowGood, some "US/Pacific")).row.source_datetime
        = pdStr ⟨⟨2024, 3, 5, 7, 0, 0⟩, -480⟩ ∧
      (procRow (exRowGood, some "US/Pacific")).pacific_datetime
        = pdStr (in_tz ⟨⟨2024, 3, 5, 7, 0, 0⟩, -480⟩ "US/Pacific")) ∧
    (process_timezones [exRowBlank, exRowBad, exRowMissing, exRowGood]
        exTZTable).1.length
      = ([exRowBlank, exRowBad, exRowMissing, exRowGood] : List AdRow).length :=
  process_timezones_amended [exRowBlank, exRowBad, exRowMissing, exRowGood] exTZTable
    (exRowBlank, some "") (exRowBad, some "Mars/Olympus")
    (exRowMissing, (none : Option String)) (exRowGood, some "US/Pacific")
    (by decide) (by decide) (by decide) (by decide)
    rfl "Mars/Olympus" rfl (by decide) (by decide) (by decide) rfl
    "US/Pacific" (-480) ⟨2024, 3, 5, 7, 0, 0⟩ rfl (by decide) (by decide) (by decide)
    (by decide)
